import Mathlib

/-!
A shallow embedding of the instrumented HTTP transfer client in `lfs/http.go`
(byte-counting body streams, the transfer-statistics registry, the redirect
policy `checkRedirect`, and the trace emitter with credential redaction),
together with proofs about its behaviour.

Modelling conventions:
* timestamps are natural numbers (`time.Time` in the finest unit; the Go zero
  value `time.Time{}` is `0`);
* the identity of a live `*http.Response` is an opaque natural number;
* Go maps are association lists; since Go specifies no iteration order for
  maps, report code that ranges over a map takes the iteration order the
  runtime happens to produce as an explicit argument (any enumeration of the
  keys);
* a `nil`-pointer dereference (a lookup of a missing map entry followed by a
  field access) is modelled by an `Option` result being `none`;
* I/O (trace lines, log-file lines) is modelled as returned lists of strings
  or structured lines.
-/

/-- A timestamp, in the finest available time unit. `0` is Go's zero `time.Time`. -/
abbrev Time := Nat

/-- The identity of a live `*http.Response` object (used as a map key in the source). -/
abbrev RespId := Nat

/-- The configuration flags consumed by `lfs/http.go`. -/
structure Config where
  isLoggingStats : Bool
  isTracingHttp : Bool
  isDebuggingHttp : Bool
deriving DecidableEq, Repr

/-- Go `strings.ToLower`, applied character-wise (sufficient for the ASCII
header lines the source lowercases). -/
def goToLower (s : String) : String :=
  String.mk (s.data.map Char.toLower)

/-- Go `strings.HasPrefix s p`: does `s` start with `p`? -/
def goStartsWith (s p : String) : Bool :=
  p.data.isPrefixOf s.data

/-- Go `strings.SplitN(s, "?", 2)[0]`: the part of `s` before the first `?`
(the whole of `s` when it has no `?`). -/
def stripQuery (s : String) : String :=
  String.mk (s.data.takeWhile (fun c => c != '?'))

/-- An HTTP header, as Go's `http.Header` with single-valued entries (keys are
stored in canonical form, as `net/http` keeps them; no key occurs twice in a
well-formed header, which theorems assume via `Nodup` hypotheses). -/
abbrev Header := List (String × String)

/-- Go `Header.Get`: the value of the first entry for `k`, or `""` when absent. -/
def Header.get (h : Header) (k : String) : String :=
  match h.find? (fun p => p.1 == k) with
  | some p => p.2
  | none => ""

/-- Go `Header.Set`: replace all entries for `k` by the single entry `(k, v)`. -/
def Header.set (h : Header) (k v : String) : Header :=
  h.filter (fun p => p.1 != k) ++ [(k, v)]

/-- Whether the header has an entry for key `k`. -/
def Header.hasKey (h : Header) (k : String) : Bool :=
  h.any (fun p => p.1 == k)

/-- The parts of a `url.URL` that `checkRedirect` consults: scheme, host, and
the remainder (path and optional `?query`). -/
structure URL where
  scheme : String
  host : String
  path : String
  query : String
deriving DecidableEq, Repr

/-- Go `URL.String()` for the fragment-free URLs handled here. -/
def URL.render (u : URL) : String :=
  u.scheme ++ "://" ++ u.host ++ u.path ++ (if u.query = "" then "" else "?" ++ u.query)

/-- The parts of an `http.Request` that the redirect policy consults. -/
structure Request where
  method : String
  url : URL
  header : Header
deriving DecidableEq, Repr

/-- The body of the `for key := range oldest.Header` loop in `checkRedirect`
(http.go:148-155): skip the `Authorization` key when the new request's scheme
or host differs from the original's, otherwise copy the original's value for
the key onto the new request. -/
def redirectHeaderStep (oldest : Request) (r : Request) (key : String) : Request :=
  if key = "Authorization" ∧ (r.url.scheme ≠ oldest.url.scheme ∨ r.url.host ≠ oldest.url.host) then
    r
  else
    { r with header := r.header.set key (oldest.header.get key) }

/-- The header-propagation loop of `checkRedirect`, iterating over the keys of
the original request's header. -/
def copyRedirectHeaders (oldest req : Request) : Request :=
  (oldest.header.map Prod.fst).foldl (redirectHeaderStep oldest) req

/-- The outcome of the redirect policy: allow the hop (with the mutated
outgoing request and the emitted trace line) or abort with an error. -/
inductive RedirectDecision where
  | ok (req : Request) (trace : String)
  | err (msg : String)
deriving DecidableEq, Repr

/-- `checkRedirect` (http.go:142-162): reject once the chain of prior requests
has 3 entries, otherwise copy the original request's headers (dropping
`Authorization` on a cross-origin hop) and emit a query-stripped trace line.
`none` models the index-out-of-range panic of `via[0]` on an empty chain, a
call the transport never makes. -/
def checkRedirect (req : Request) (via : List Request) : Option RedirectDecision :=
  if via.length ≥ 3 then
    some (RedirectDecision.err "stopped after 3 redirects")
  else
    match via.head? with
    | none => none
    | some oldest =>
      some (RedirectDecision.ok (copyRedirectHeaders oldest req)
        ("api: redirect " ++ oldest.method ++ " " ++ stripQuery oldest.url.render
          ++ " to " ++ stripQuery req.url.render))

/-- What the transport finds when it sends one request: a redirect to a next
request, or a final (non-redirect) response. -/
inductive TransportResult where
  | redirect (next : Request)
  | final
deriving DecidableEq, Repr

/-- Modelled from the spec: the underlying transport's redirect-following loop
(`net/http`, not part of this repository), which, per §4.2, invokes the policy
"with the pending request and the full chain of prior requests" before issuing
each hop and aborts the whole operation on a policy failure. Returns the list
of requests actually handed to the transport and the outcome. The fuel
argument bounds the recursion; the hop cap makes any fuel ≥ 5 equivalent. -/
def followRedirects (transport : Request → TransportResult) :
    Nat → Request → List Request → List Request × Except String Unit
  | 0, _, _ => ([], Except.error "redirect loop fuel exhausted")
  | Nat.succ fuel, req, via =>
    match transport req with
    | TransportResult.final => ([req], Except.ok ())
    | TransportResult.redirect next =>
      match checkRedirect next (via ++ [req]) with
      | some (RedirectDecision.ok next1 _) =>
        let rest := followRedirects transport fuel next1 (via ++ [req])
        (req :: rest.1, rest.2)
      | some (RedirectDecision.err e) => ([req], Except.error e)
      | none => ([req], Except.error "panic: index out of range")

/-- One emitted line of `traceHttpDump` (http.go:209-216): a header line whose
lowercasing starts with `authorization: basic` is replaced by the fixed
placeholder unless the unsafe-debug flag is set. -/
def traceDumpLine (cfg : Config) (direction line : String) : String :=
  if cfg.isDebuggingHttp = false ∧ goStartsWith (goToLower line) "authorization: basic" = true then
    direction ++ " Authorization: Basic * * * * *"
  else
    direction ++ " " ++ line

/-- `traceHttpDump` (http.go:206-217): emit one line per line of the header
dump (the `bufio.Scanner` tokenization into lines is taken as given). -/
def traceHttpDump (cfg : Config) (direction : String) (dumpLines : List String) : List String :=
  dumpLines.map (traceDumpLine cfg direction)

/-- One side's transfer statistics (`httpTransferStats`, http.go:22-27). Go's
zero values for `Start`/`Stop` are `0`. -/
structure HttpTransferStats where
  headerSize : Nat
  bodySize : Nat
  start : Time
  stop : Time
deriving DecidableEq, Repr

/-- A request-side/response-side pair (`httpTransfer`, http.go:29-32). -/
structure HttpTransfer where
  requestStats : HttpTransferStats
  responseStats : HttpTransferStats
deriving DecidableEq, Repr

/-- The records-by-identity map `httpTransfers` (http.go:36), as an
association list keyed by response identity. -/
abbrev TransferMap := List (RespId × HttpTransfer)

/-- The buckets-by-key map `httpTransferBuckets` (http.go:37). -/
abbrev BucketMap := List (String × List RespId)

/-- Go `httpTransfers[res]`: `some` record, or `none` when absent (a `nil`
pointer in Go). -/
def lookupTransfer (m : TransferMap) (rid : RespId) : Option HttpTransfer :=
  (m.find? (fun p => p.1 == rid)).map Prod.snd

/-- Go `httpTransfers[res] = t`: overwrite the entry if present, else add it. -/
def insertTransfer (m : TransferMap) (rid : RespId) (t : HttpTransfer) : TransferMap :=
  if m.any (fun p => p.1 == rid) then
    m.map (fun p => if p.1 == rid then (p.1, t) else p)
  else
    m ++ [(rid, t)]

/-- The finalization write of `countingReadCloser.Read` (http.go:280-283):
if a record for `rid` exists, set its response-side body size and stop time;
when the record is absent this is a no-op (the `ok` guard). -/
def finalizeTransfer (m : TransferMap) (rid : RespId) (bodySize : Nat) (stop : Time) : TransferMap :=
  m.map (fun p =>
    if p.1 == rid then
      (p.1, { p.2 with responseStats := { p.2.responseStats with bodySize := bodySize, stop := stop } })
    else p)

/-- Go `m[key] = append(m[key], rid)` on the bucket map: append to the
existing entry for `key`, or create the entry. -/
def bucketAppend (m : BucketMap) (key : String) (rid : RespId) : BucketMap :=
  if m.any (fun p => p.1 == key) then
    m.map (fun p => if p.1 == key then (p.1, p.2 ++ [rid]) else p)
  else
    m ++ [(key, [rid])]

/-- Go `m[key]` on the bucket map: the bucket's list of response identities,
`[]` when the key is absent. -/
def bucketGet (m : BucketMap) (key : String) : List RespId :=
  ((m.find? (fun p => p.1 == key)).map Prod.snd).getD []

/-- `LogTransfer` (http.go:42-48): append the response identity to the named
bucket, but only when statistics logging is enabled. -/
def LogTransfer (cfg : Config) (m : BucketMap) (key : String) (rid : RespId) : BucketMap :=
  if cfg.isLoggingStats = true then bucketAppend m key rid else m

/-- The error returned by one call to the wrapped stream's `Read`: `none` is a
`nil` error, `eof` is `io.EOF`, `failure` is any other error. -/
inductive ReadError where
  | eof
  | failure (msg : String)
deriving DecidableEq, Repr

/-- The mutable fields of `countingReadCloser` (http.go:247-254) that `Read`
consults: the running byte count, the identity of the wrapped response
(`none` in request mode), and the trace flags fixed at construction. -/
structure CountingReadCloser where
  count : Nat
  response : Option RespId
  isTraceableType : Bool
  useGitTrace : Bool
deriving DecidableEq, Repr

/-- Everything one call to `countingReadCloser.Read` produces: the returned
`(n, err)` pair, the updated stream state, the updated records map, and the
trace lines mirrored to the sinks. -/
structure ReadOutcome where
  n : Nat
  err : Option ReadError
  crc : CountingReadCloser
  transfers : TransferMap
  trace : List String
deriving DecidableEq, Repr

/-- `countingReadCloser.Read` (http.go:256-288) on one result of the wrapped
stream, which returned the bytes `chunk` together with `err`; `now` is the
wall clock at this call. A non-EOF error returns early — before the count is
updated and without touching the registry. Otherwise the count grows by `n`,
traceable content is mirrored, and on `io.EOF` (statistics enabled, response
mode) the record for the response identity, if present, gets its body size
and stop time written. -/
def CountingReadCloser.Read (cfg : Config) (c : CountingReadCloser) (transfers : TransferMap)
    (chunk : String) (err : Option ReadError) (now : Time) : ReadOutcome :=
  let n := chunk.length
  match err with
  | some (ReadError.failure e) =>
    { n := n, err := some (ReadError.failure e), crc := c, transfers := transfers, trace := [] }
  | _ =>
    let c1 := { c with count := c.count + n }
    let trace :=
      if c.isTraceableType then
        (if c.useGitTrace then ["HTTP: " ++ chunk] else []) ++
          (if cfg.isTracingHttp then [chunk] else [])
      else []
    let transfers1 :=
      if err = some ReadError.eof ∧ cfg.isLoggingStats = true then
        match c.response with
        | some rid => finalizeTransfer transfers rid c1.count now
        | none => transfers
      else transfers
    { n := n, err := err, crc := c1, transfers := transfers1, trace := trace }

/-- One scheduled call to `Read`: what the wrapped stream will return and the
wall clock at that moment. -/
structure ReadCall where
  chunk : String
  err : Option ReadError
  now : Time
deriving DecidableEq, Repr

/-- Drive a counting stream through a sequence of reads, collecting the
`(n, err)` pairs returned to the caller and threading the stream state and the
records map. -/
def runReads (cfg : Config) : CountingReadCloser → TransferMap → List ReadCall →
    List (Nat × Option ReadError) × CountingReadCloser × TransferMap
  | c, m, [] => ([], c, m)
  | c, m, call :: rest =>
    let o := CountingReadCloser.Read cfg c m call.chunk call.err call.now
    let r := runReads cfg o.crc o.transfers rest
    ((o.n, o.err) :: r.1, r.2)

/-- The byte counts the counting stream actually accumulates from a sequence
of reads: the chunk sizes of the calls that did not end in a non-EOF error
(http.go:258-262 returns early on such an error, before `c.Count += n`). -/
def countedBytes (calls : List ReadCall) : Nat :=
  ((calls.filter (fun call =>
    match call.err with
    | some (ReadError.failure _) => false
    | _ => true)).map (fun call => call.chunk.length)).sum

/-- How one execution of the underlying transport inside `HttpClient.Do`
ends: a transport error, or a response with identity `rid` whose header dump
(`httputil.DumpResponse`) succeeded with the given size (`none` = dump error). -/
inductive TransportOutcome where
  | failure (msg : String)
  | success (rid : RespId) (resDumpSize : Option Nat)
deriving DecidableEq, Repr

/-- `HttpClient.Do` (http.go:54-99), after the request trace and body
wrapping: run the underlying transport; on error return it unchanged with no
registry write; on success (statistics enabled) open a record keyed by the
response identity, request side complete (header dump size, defaulting to 0 on
a dump error, and the counted request-body bytes), response side holding the
header size and the start time, body size and stop still zero. -/
def HttpClient.Do (cfg : Config) (outcome : TransportOutcome) (reqDumpSize : Option Nat)
    (reqBodyCount : Nat) (start : Time) (m : TransferMap) : Except String RespId × TransferMap :=
  match outcome with
  | TransportOutcome.failure msg => (Except.error msg, m)
  | TransportOutcome.success rid resDumpSize =>
    if cfg.isLoggingStats = true then
      let reqstats : HttpTransferStats :=
        { headerSize := reqDumpSize.getD 0, bodySize := reqBodyCount, start := 0, stop := 0 }
      let resstats : HttpTransferStats :=
        { headerSize := resDumpSize.getD 0, bodySize := 0, start := start, stop := 0 }
      (Except.ok rid, insertTransfer m rid { requestStats := reqstats, responseStats := resstats })
    else
      (Except.ok rid, m)

/-- One `key=... reqheader=... ...` line of the shutdown report
(http.go:309-317). `resTime` is `Stop.Sub(Start)` and may be negative when the
record was never finalized (stop still zero). `status` and `url` come from the
live response object. -/
structure StatsLine where
  key : String
  reqHeader : Nat
  reqBody : Nat
  resHeader : Nat
  resBody : Nat
  resTime : Int
  status : Nat
  url : String
deriving DecidableEq, Repr

/-- The per-transfer line body of `LogHttpStats` (http.go:308-317): look the
record up by response identity and format its fields. `none` models the
`nil`-pointer dereference that Go performs when the identity was bucketed but
never opened as a record (`stats` is `nil` and `stats.requestStats` panics). -/
def statsLine (m : TransferMap) (status : RespId → Nat) (url : RespId → String)
    (key : String) (rid : RespId) : Option StatsLine :=
  match lookupTransfer m rid with
  | none => none
  | some t =>
    some { key := key, reqHeader := t.requestStats.headerSize, reqBody := t.requestStats.bodySize,
           resHeader := t.responseStats.headerSize, resBody := t.responseStats.bodySize,
           resTime := (t.responseStats.stop : Int) - (t.responseStats.start : Int),
           status := status rid, url := url rid }

/-- The inner loop of `LogHttpStats`: one line per response identity of a
bucket, in the bucket's (append) order; `none` as soon as one identity has no
record. -/
def bucketLines (m : TransferMap) (status : RespId → Nat) (url : RespId → String)
    (key : String) : List RespId → Option (List StatsLine)
  | [] => some []
  | rid :: rest =>
    match statsLine m status url key rid, bucketLines m status url key rest with
    | some l, some ls => some (l :: ls)
    | _, _ => none

/-- The outer loop of `LogHttpStats`: the buckets in the iteration order
`order` that the runtime's map enumeration produced, each bucket's lines in
append order. -/
def allBucketLines (m : TransferMap) (buckets : BucketMap) (status : RespId → Nat)
    (url : RespId → String) : List String → Option (List StatsLine)
  | [] => some []
  | key :: rest =>
    match bucketLines m status url key (bucketGet buckets key),
        allBucketLines m buckets status url rest with
    | some ls, some more => some (ls ++ more)
    | _, _ => none

/-- `LogHttpStats` (http.go:293-322), its output modelled as the list of
per-transfer lines (the summary line and the log-file plumbing are I/O).
When statistics logging is disabled it returns without writing. `order` is
the key enumeration the runtime's `range` over the bucket map produced — Go
specifies no order, so any enumeration of the keys is a possible run. -/
def LogHttpStats (cfg : Config) (m : TransferMap) (buckets : BucketMap) (order : List String)
    (status : RespId → Nat) (url : RespId → String) : Option (List StatsLine) :=
  if cfg.isLoggingStats = false then some []
  else allBucketLines m buckets status url order

/-! Concrete fixtures used by witnesses and counterexamples. -/

/-- A redirect-hop request: `GET https://h<p>` with no headers. -/
def hopReq (p : String) : Request :=
  { method := "GET", url := { scheme := "https", host := "h", path := p, query := "" }, header := [] }

/-- A transport whose chain is `/0 → /1 → /2 → /3 → /4 → …`: every request up
to `/4` answers with a redirect, so a client would need 5 requests to finish. -/
def chain4Transport : Request → TransportResult := fun r =>
  if r.url.path = "/0" then TransportResult.redirect (hopReq "/1")
  else if r.url.path = "/1" then TransportResult.redirect (hopReq "/2")
  else if r.url.path = "/2" then TransportResult.redirect (hopReq "/3")
  else if r.url.path = "/3" then TransportResult.redirect (hopReq "/4")
  else TransportResult.final

/-- A transport whose chain is `/0 → /1 → /2`, the third response final: a
redirect chain of 3 requests in total. -/
def chain3Transport : Request → TransportResult := fun r =>
  if r.url.path = "/0" then TransportResult.redirect (hopReq "/1")
  else if r.url.path = "/1" then TransportResult.redirect (hopReq "/2")
  else TransportResult.final

/-- Statistics logging on, tracing and unsafe debug off. -/
def exCfgLog : Config := { isLoggingStats := true, isTracingHttp := false, isDebuggingHttp := false }

/-- All flags off. -/
def exCfgOff : Config := { isLoggingStats := false, isTracingHttp := false, isDebuggingHttp := false }

/-- A response-mode counting stream for response identity 1, count 0. -/
def exCrc : CountingReadCloser :=
  { count := 0, response := some 1, isTraceableType := false, useGitTrace := false }

/-- An open, not yet finalized record: response side has header size 30,
start time 4, body size and stop time still zero. -/
def exRecord : HttpTransfer :=
  { requestStats := { headerSize := 10, bodySize := 20, start := 0, stop := 0 },
    responseStats := { headerSize := 30, bodySize := 0, start := 4, stop := 0 } }

/-- A finalized record (stop time 6). -/
def exRecord2 : HttpTransfer :=
  { requestStats := { headerSize := 1, bodySize := 2, start := 0, stop := 0 },
    responseStats := { headerSize := 3, bodySize := 4, start := 5, stop := 6 } }

/-- A records map holding only identity 1. -/
def exTransfers : TransferMap := [(1, exRecord)]

/-- A records map holding identities 1 and 2. -/
def exTransfers2 : TransferMap := [(1, exRecord), (2, exRecord2)]

/-- Buckets inserted in the order `"a"` then `"b"`. -/
def exBuckets : BucketMap := [("a", [1]), ("b", [2])]

/-- Status codes of the live responses in the examples. -/
def exStatus : RespId → Nat := fun _ => 200

/-- Final URLs of the live responses in the examples. -/
def exUrl : RespId → String := fun _ => "u"

/-- A read that returns 2 bytes together with end-of-stream, at time 5. -/
def exEofCall1 : ReadCall := { chunk := "ab", err := some ReadError.eof, now := 5 }

/-- A read after end-of-stream: 0 bytes and end-of-stream again, at time 9. -/
def exEofCall2 : ReadCall := { chunk := "", err := some ReadError.eof, now := 9 }

/-- A read that returns 5 bytes together with a non-EOF error, at time 3. -/
def exFailCall : ReadCall := { chunk := "hello", err := some (ReadError.failure "boom"), now := 3 }

/-- The original request of the spec §8 example: `GET https://host/a` carrying
`Authorization: Basic abcd`. -/
def origReqEx : Request :=
  { method := "GET", url := { scheme := "https", host := "host", path := "/a", query := "" },
    header := [("Authorization", "Basic abcd"), ("Accept", "x")] }

/-- The pending cross-origin redirect request `GET https://other/b`, fresh
(no headers yet). -/
def crossOriginReqEx : Request :=
  { method := "GET", url := { scheme := "https", host := "other", path := "/b", query := "" },
    header := [] }

/-- A pending same-origin redirect request `GET https://host/b`, fresh. -/
def sameOriginReqEx : Request :=
  { method := "GET", url := { scheme := "https", host := "host", path := "/b", query := "" },
    header := [] }

/-! Lemmas about the header map operations. -/

/-- After `Set k v`, `Get k` returns `v`. -/
theorem Header.get_set_self (h : Header) (k v : String) : (h.set k v).get k = v := by
  unfold Header.set Header.get
  rw [List.find?_append]
  have hnone : (h.filter (fun p => p.1 != k)).find? (fun p => p.1 == k) = none := by
    rw [List.find?_eq_none]
    intro a ha
    have := (List.mem_filter.mp ha).2
    simp_all
  rw [hnone]
  simp [List.find?]

/-- After `Set k v`, `Get` at a different key is unchanged. -/
theorem Header.get_set_ne (h : Header) (k v k1 : String) (hne : k1 ≠ k) :
    (h.set k v).get k1 = h.get k1 := by
  unfold Header.set Header.get
  rw [List.find?_append]
  have htail : ([(k, v)] : Header).find? (fun p => p.1 == k1) = none := by
    rw [List.find?_eq_none]
    intro a ha
    simp only [List.mem_singleton] at ha
    subst ha
    simp [Ne.symm hne]
  have hfilter : (h.filter (fun p => p.1 != k)).find? (fun p => p.1 == k1)
      = h.find? (fun p => p.1 == k1) := by
    induction h with
    | nil => rfl
    | cons p t ih =>
      obtain ⟨a, b⟩ := p
      by_cases hp : a = k
      · subst hp
        simp [List.filter_cons, List.find?_cons, Ne.symm hne, ih]
      · by_cases hq : a = k1
        · subst hq
          simp [List.filter_cons, List.find?_cons, hp]
        · simp [List.filter_cons, List.find?_cons, hp, hq, ih]
  rw [htail, hfilter]
  cases h.find? (fun p => p.1 == k1) <;> rfl

/-- After `Set k v`, the key `k` is present. -/
theorem Header.hasKey_set_self (h : Header) (k v : String) : (h.set k v).hasKey k = true := by
  simp [Header.set, Header.hasKey]

/-- After `Set k v`, presence of a different key is unchanged. -/
theorem Header.hasKey_set_ne (h : Header) (k v k1 : String) (hne : k1 ≠ k) :
    (h.set k v).hasKey k1 = h.hasKey k1 := by
  unfold Header.set Header.hasKey
  rw [List.any_append]
  have h2 : ([(k, v)] : Header).any (fun p => p.1 == k1) = false := by
    simp [Ne.symm hne]
  rw [h2]
  have h1 : (h.filter (fun p => p.1 != k)).any (fun p => p.1 == k1) = h.any (fun p => p.1 == k1) := by
    induction h with
    | nil => rfl
    | cons p t ih =>
      obtain ⟨a, b⟩ := p
      by_cases hp : a = k
      · subst hp
        simp [List.filter_cons, List.any_cons, Ne.symm hne, ih]
      · simp [List.filter_cons, List.any_cons, hp, ih]
  rw [h1]
  cases h.any (fun p => p.1 == k1) <;> rfl

/-! Lemmas about the header-propagation loop of `checkRedirect`. -/

/-- One loop step never changes the request's URL. -/
theorem redirectHeaderStep_url (oldest r : Request) (key : String) :
    (redirectHeaderStep oldest r key).url = r.url := by
  unfold redirectHeaderStep
  split <;> rfl

/-- The loop never changes the request's URL. -/
theorem copyLoop_url (oldest : Request) (ks : List String) :
    ∀ r : Request, (ks.foldl (redirectHeaderStep oldest) r).url = r.url := by
  induction ks with
  | nil => intro r; rfl
  | cons k ks ih =>
    intro r
    rw [List.foldl_cons, ih, redirectHeaderStep_url]

/-- A key the loop never visits keeps its `Get` value. -/
theorem copyLoop_get_not_mem (oldest : Request) (ks : List String) :
    ∀ (r : Request) (k1 : String), k1 ∉ ks →
      ((ks.foldl (redirectHeaderStep oldest) r).header).get k1 = r.header.get k1 := by
  induction ks with
  | nil => intro r k1 _; rfl
  | cons k ks ih =>
    intro r k1 hk
    have h1 : k1 ∉ ks := fun h => hk (List.mem_cons_of_mem _ h)
    have h2 : k1 ≠ k := fun h => hk (h ▸ List.mem_cons_self _ _)
    rw [List.foldl_cons, ih _ _ h1]
    unfold redirectHeaderStep
    split
    · rfl
    · exact Header.get_set_ne _ _ _ _ h2

/-- A key the loop never visits keeps its presence. -/
theorem copyLoop_hasKey_not_mem (oldest : Request) (ks : List String) :
    ∀ (r : Request) (k1 : String), k1 ∉ ks →
      ((ks.foldl (redirectHeaderStep oldest) r).header).hasKey k1 = r.header.hasKey k1 := by
  induction ks with
  | nil => intro r k1 _; rfl
  | cons k ks ih =>
    intro r k1 hk
    have h1 : k1 ∉ ks := fun h => hk (List.mem_cons_of_mem _ h)
    have h2 : k1 ≠ k := fun h => hk (h ▸ List.mem_cons_self _ _)
    rw [List.foldl_cons, ih _ _ h1]
    unfold redirectHeaderStep
    split
    · rfl
    · exact Header.hasKey_set_ne _ _ _ _ h2

/-- On a cross-origin hop the loop never touches the `Authorization` key:
its presence on the outgoing request is whatever it was before the loop. -/
theorem copyLoop_hasKey_auth_mismatch (oldest : Request) (ks : List String) :
    ∀ r : Request,
      (r.url.scheme ≠ oldest.url.scheme ∨ r.url.host ≠ oldest.url.host) →
      ((ks.foldl (redirectHeaderStep oldest) r).header).hasKey "Authorization"
        = r.header.hasKey "Authorization" := by
  induction ks with
  | nil => intro r _; rfl
  | cons k ks ih =>
    intro r hmis
    rw [List.foldl_cons]
    have hurl : (redirectHeaderStep oldest r k).url = r.url := redirectHeaderStep_url _ _ _
    rw [ih _ (by rw [hurl]; exact hmis)]
    by_cases hk : k = "Authorization"
    · subst hk
      unfold redirectHeaderStep
      rw [if_pos ⟨rfl, hmis⟩]
    · unfold redirectHeaderStep
      split
      · rfl
      · exact Header.hasKey_set_ne _ _ _ _ (Ne.symm hk)

/-- A visited key that is not skipped ends up with the original request's
value for it (keys are visited once: `Nodup`). -/
theorem copyLoop_get_mem (oldest : Request) (ks : List String) :
    ∀ (r : Request) (k1 : String), ks.Nodup → k1 ∈ ks →
      (k1 = "Authorization" →
        r.url.scheme = oldest.url.scheme ∧ r.url.host = oldest.url.host) →
      ((ks.foldl (redirectHeaderStep oldest) r).header).get k1 = oldest.header.get k1 := by
  induction ks with
  | nil => intro r k1 _ hk _; cases hk
  | cons k ks ih =>
    intro r k1 hnodup hk hauth
    rw [List.foldl_cons]
    rcases List.mem_cons.mp hk with heq | hmem
    · subst heq
      have hnotin : k1 ∉ ks := (List.nodup_cons.mp hnodup).1
      rw [copyLoop_get_not_mem _ _ _ _ hnotin]
      unfold redirectHeaderStep
      split
      · rename_i hcond
        exact absurd (hauth hcond.1) (by
          rcases hcond.2 with h | h
          · exact fun hc => h hc.1
          · exact fun hc => h hc.2)
      · exact Header.get_set_self _ _ _
    · have hurl : (redirectHeaderStep oldest r k).url = r.url := redirectHeaderStep_url _ _ _
      exact ih _ _ (List.nodup_cons.mp hnodup).2 hmem (fun h => by rw [hurl]; exact hauth h)

/-- A visited key that is not skipped is present afterwards. -/
theorem copyLoop_hasKey_mem (oldest : Request) (ks : List String) :
    ∀ (r : Request) (k1 : String), ks.Nodup → k1 ∈ ks →
      (k1 = "Authorization" →
        r.url.scheme = oldest.url.scheme ∧ r.url.host = oldest.url.host) →
      ((ks.foldl (redirectHeaderStep oldest) r).header).hasKey k1 = true := by
  induction ks with
  | nil => intro r k1 _ hk _; cases hk
  | cons k ks ih =>
    intro r k1 hnodup hk hauth
    rw [List.foldl_cons]
    rcases List.mem_cons.mp hk with heq | hmem
    · subst heq
      have hnotin : k1 ∉ ks := (List.nodup_cons.mp hnodup).1
      rw [copyLoop_hasKey_not_mem _ _ _ _ hnotin]
      unfold redirectHeaderStep
      split
      · rename_i hcond
        exact absurd (hauth hcond.1) (by
          rcases hcond.2 with h | h
          · exact fun hc => h hc.1
          · exact fun hc => h hc.2)
      · exact Header.hasKey_set_self _ _ _
    · have hurl : (redirectHeaderStep oldest r k).url = r.url := redirectHeaderStep_url _ _ _
      exact ih _ _ (List.nodup_cons.mp hnodup).2 hmem (fun h => by rw [hurl]; exact hauth h)

/-- C2: on every allowed redirect hop, `checkRedirect` copies every header of
the original (first) request onto the new request, except that the
`Authorization` header is copied if and only if the new request's URL scheme
and host both equal the original's; on a cross-origin hop the outgoing request
(which starts without an `Authorization` header) carries none, and on a
same-origin hop the outgoing `Authorization` value equals the original's. -/
theorem checkRedirect_header_propagation (req orig : Request) (via : List Request)
    (hvia : via.head? = some orig) (hlen : via.length ≤ 2)
    (hnodup : (orig.header.map Prod.fst).Nodup)
    (hfresh : req.header.hasKey "Authorization" = false) :
    ∃ req1 trace, checkRedirect req via = some (RedirectDecision.ok req1 trace) ∧
      (∀ k, k ∈ orig.header.map Prod.fst → k ≠ "Authorization" →
        req1.header.get k = orig.header.get k) ∧
      ((req.url.scheme = orig.url.scheme ∧ req.url.host = orig.url.host) →
        (∀ k, k ∈ orig.header.map Prod.fst → req1.header.get k = orig.header.get k) ∧
        (orig.header.hasKey "Authorization" = true →
          req1.header.hasKey "Authorization" = true ∧
          req1.header.get "Authorization" = orig.header.get "Authorization")) ∧
      ((req.url.scheme ≠ orig.url.scheme ∨ req.url.host ≠ orig.url.host) →
        req1.header.hasKey "Authorization" = false) := by
  have hnot3 : ¬ via.length ≥ 3 := by omega
  refine ⟨copyRedirectHeaders orig req,
    "api: redirect " ++ orig.method ++ " " ++ stripQuery orig.url.render
      ++ " to " ++ stripQuery req.url.render, ?_, ?_, ?_, ?_⟩
  · unfold checkRedirect
    rw [if_neg hnot3, hvia]
  · intro k hk hkauth
    unfold copyRedirectHeaders
    exact copyLoop_get_mem orig _ req k hnodup hk (fun h => absurd h hkauth)
  · intro hsame
    constructor
    · intro k hk
      unfold copyRedirectHeaders
      exact copyLoop_get_mem orig _ req k hnodup hk (fun _ => hsame)
    · intro hauth
      have hmem : "Authorization" ∈ orig.header.map Prod.fst := by
        unfold Header.hasKey at hauth
        rw [List.any_eq_true] at hauth
        obtain ⟨p, hp, hpk⟩ := hauth
        rw [beq_iff_eq] at hpk
        exact hpk ▸ List.mem_map_of_mem Prod.fst hp
      exact ⟨copyLoop_hasKey_mem orig _ req _ hnodup hmem (fun _ => hsame),
        copyLoop_get_mem orig _ req _ hnodup hmem (fun _ => hsame)⟩
  · intro hmis
    unfold copyRedirectHeaders
    rw [copyLoop_hasKey_auth_mismatch orig _ req hmis]
    exact hfresh

/-- C2 witness: the spec §8 example, `GET https://host/a` with
`Authorization: Basic abcd` redirected to `https://other/b`. -/
theorem checkRedirect_header_propagation_witness :
    ∃ req1 trace,
      checkRedirect crossOriginReqEx [origReqEx] = some (RedirectDecision.ok req1 trace) ∧
      (∀ k, k ∈ origReqEx.header.map Prod.fst → k ≠ "Authorization" →
        req1.header.get k = origReqEx.header.get k) ∧
      ((crossOriginReqEx.url.scheme = origReqEx.url.scheme ∧
          crossOriginReqEx.url.host = origReqEx.url.host) →
        (∀ k, k ∈ origReqEx.header.map Prod.fst →
          req1.header.get k = origReqEx.header.get k) ∧
        (origReqEx.header.hasKey "Authorization" = true →
          req1.header.hasKey "Authorization" = true ∧
          req1.header.get "Authorization" = origReqEx.header.get "Authorization")) ∧
      ((crossOriginReqEx.url.scheme ≠ origReqEx.url.scheme ∨
          crossOriginReqEx.url.host ≠ origReqEx.url.host) →
        req1.header.hasKey "Authorization" = false) :=
  checkRedirect_header_propagation crossOriginReqEx origReqEx [origReqEx]
    rfl (by decide) (by decide) (by decide)

/-- C3: the redirect policy fails with the hop-limit error exactly when the
chain of prior requests already holds 3 requests, and allows every hop whose
total chain (prior requests plus the pending one) has length at most 3; a
chain that would need a 4th hop aborts with the hop-limit error after exactly
3 transport calls — the 4th request is never handed to the transport — while
a 3-request chain completes successfully. -/
theorem checkRedirect_hop_limit :
    (∀ (req : Request) (via : List Request), via ≠ [] → via.length ≤ 3 →
      ((checkRedirect req via = some (RedirectDecision.err "stopped after 3 redirects"))
        ↔ via.length = 3)) ∧
    (∀ (req : Request) (via : List Request), via ≠ [] → via.length + 1 ≤ 3 →
      ∃ req1 trace, checkRedirect req via = some (RedirectDecision.ok req1 trace)) ∧
    followRedirects chain4Transport 10 (hopReq "/0") []
      = ([hopReq "/0", hopReq "/1", hopReq "/2"], Except.error "stopped after 3 redirects") ∧
    followRedirects chain3Transport 10 (hopReq "/0") []
      = ([hopReq "/0", hopReq "/1", hopReq "/2"], Except.ok ()) := by
  refine ⟨?_, ?_, by rfl, by rfl⟩
  · intro req via hne hle
    unfold checkRedirect
    by_cases h3 : via.length ≥ 3
    · rw [if_pos h3]
      exact iff_of_true rfl (by omega)
    · rw [if_neg h3]
      match hv : via.head? with
      | none =>
        exact absurd (List.head?_eq_none_iff.mp hv) hne
      | some oldest =>
        constructor
        · intro h
          simp at h
        · intro h
          omega
  · intro req via hne hle
    unfold checkRedirect
    rw [if_neg (by omega)]
    match hv : via.head? with
    | none =>
      exact absurd (List.head?_eq_none_iff.mp hv) hne
    | some oldest =>
      exact ⟨_, _, rfl⟩

/-- C3 witness: the first hop of a chain (one prior request) is allowed, and a
prior chain of 3 requests is rejected with the hop-limit error. -/
theorem checkRedirect_hop_limit_witness :
    (∃ req1 trace, checkRedirect (hopReq "/1") [hopReq "/0"]
      = some (RedirectDecision.ok req1 trace)) ∧
    (checkRedirect (hopReq "/3") [hopReq "/0", hopReq "/1", hopReq "/2"]
      = some (RedirectDecision.err "stopped after 3 redirects")) :=
  ⟨checkRedirect_hop_limit.2.1 (hopReq "/1") [hopReq "/0"] (by decide) (by decide),
    (checkRedirect_hop_limit.1 (hopReq "/3") [hopReq "/0", hopReq "/1", hopReq "/2"]
      (by decide) (by decide)).mpr rfl⟩

/-- A list is a prefix of itself followed by anything (`isPrefixOf` form). -/
theorem isPrefixOf_append_self (l r : List Char) : l.isPrefixOf (l ++ r) = true := by
  simp

/-- A header line named `Authorization` whose value begins (case-insensitively)
with `basic` satisfies the redaction test of `traceHttpDump`. -/
theorem goStartsWith_authorization_line (v : String)
    (hv : goStartsWith (goToLower v) "basic" = true) :
    goStartsWith (goToLower ("Authorization: " ++ v)) "authorization: basic" = true := by
  have hdata : (goToLower ("Authorization: " ++ v)).data
      = "authorization: ".data ++ (goToLower v).data := by
    show ("Authorization: " ++ v).data.map Char.toLower = _
    rw [String.data_append, List.map_append]
    have hlow : "Authorization: ".data.map Char.toLower = "authorization: ".data := by decide
    rw [hlow]
    rfl
  unfold goStartsWith at hv ⊢
  rw [ List.isPrefixOf_iff_prefix] at hv ⊢
  obtain ⟨tail, htail⟩ := hv
  rw [hdata, ← htail]
  have hsplit : "authorization: basic".data = "authorization: ".data ++ "basic".data := by decide
  rw [hsplit, ← List.append_assoc]
  exact List.prefix_append _ _

/-- C4: in a verbose trace dump, a header line named `Authorization` whose
value begins with the case-insensitive token `Basic` is emitted as the fixed
redaction placeholder when the unsafe-debug flag is off, and as the literal
line (credential included) when the flag is on; all other dump lines are
emitted literally either way. -/
theorem traceHttpDump_basic_redaction (cfg : Config) (direction v : String)
    (pre post : List String) (hv : goStartsWith (goToLower v) "basic" = true) :
    (cfg.isDebuggingHttp = false →
      traceHttpDump cfg direction (pre ++ ("Authorization: " ++ v) :: post)
        = traceHttpDump cfg direction pre
          ++ (direction ++ " Authorization: Basic * * * * *")
          :: traceHttpDump cfg direction post) ∧
    (cfg.isDebuggingHttp = true →
      traceHttpDump cfg direction (pre ++ ("Authorization: " ++ v) :: post)
        = traceHttpDump cfg direction pre
          ++ (direction ++ " " ++ ("Authorization: " ++ v))
          :: traceHttpDump cfg direction post) := by
  have hline := goStartsWith_authorization_line v hv
  constructor
  · intro hdbg
    unfold traceHttpDump
    rw [List.map_append, List.map_cons]
    have : traceDumpLine cfg direction ("Authorization: " ++ v)
        = direction ++ " Authorization: Basic * * * * *" := by
      unfold traceDumpLine
      rw [if_pos ⟨hdbg, hline⟩]
    rw [this]
  · intro hdbg
    unfold traceHttpDump
    rw [List.map_append, List.map_cons]
    have : traceDumpLine cfg direction ("Authorization: " ++ v)
        = direction ++ " " ++ ("Authorization: " ++ v) := by
      unfold traceDumpLine
      rw [if_neg (by rw [hdbg]; rintro ⟨h, _⟩; cases h)]
    rw [this]

/-- C4 witness: with unsafe debug off, the dump line `Authorization: Basic
abcd` between two ordinary header lines is emitted as the placeholder. -/
theorem traceHttpDump_basic_redaction_witness :
    ((Config.mk true true false).isDebuggingHttp = false →
      traceHttpDump (Config.mk true true false) ">"
          (["Host: h"] ++ ("Authorization: " ++ "Basic abcd") :: ["Accept: x"])
        = traceHttpDump (Config.mk true true false) ">" ["Host: h"]
          ++ (">" ++ " Authorization: Basic * * * * *")
          :: traceHttpDump (Config.mk true true false) ">" ["Accept: x"]) ∧
    ((Config.mk true true false).isDebuggingHttp = true →
      traceHttpDump (Config.mk true true false) ">"
          (["Host: h"] ++ ("Authorization: " ++ "Basic abcd") :: ["Accept: x"])
        = traceHttpDump (Config.mk true true false) ">" ["Host: h"]
          ++ (">" ++ " " ++ ("Authorization: " ++ "Basic abcd"))
          :: traceHttpDump (Config.mk true true false) ">" ["Accept: x"]) :=
  traceHttpDump_basic_redaction (Config.mk true true false) ">" "Basic abcd"
    ["Host: h"] ["Accept: x"] (by decide)

/-! Lemmas about the records map and the counting stream. -/

/-- Looking up the finalized identity: the stored record with body size and
stop time overwritten (and `none` stays `none` — the `ok` guard). -/
theorem lookupTransfer_finalize (m : TransferMap) (rid : RespId) (b : Nat) (s : Time) :
    lookupTransfer (finalizeTransfer m rid b s) rid
      = (lookupTransfer m rid).map (fun t =>
          { t with responseStats := { t.responseStats with bodySize := b, stop := s } }) := by
  induction m with
  | nil => rfl
  | cons p t ih =>
    obtain ⟨a, rec⟩ := p
    by_cases hp : a = rid
    · subst hp
      simp [finalizeTransfer, lookupTransfer, List.find?_cons]
    · have hb : (a == rid) = false := by simp [hp]
      simp only [finalizeTransfer, lookupTransfer, List.map_cons, List.find?_cons, hb] at ih ⊢
      rw [if_neg (by simp [hp])]
      simp only [hb]
      exact ih

/-- The `(n, err)` pairs a run of reads returns to the caller: each call
returns the wrapped stream's byte count and error unchanged. -/
theorem runReads_outputs (cfg : Config) :
    ∀ (calls : List ReadCall) (c : CountingReadCloser) (m : TransferMap),
      (runReads cfg c m calls).1
        = calls.map (fun call => (call.chunk.length, call.err)) := by
  intro calls
  induction calls with
  | nil => intro c m; rfl
  | cons call rest ih =>
    intro c m
    show ((CountingReadCloser.Read cfg c m call.chunk call.err call.now).n,
        (CountingReadCloser.Read cfg c m call.chunk call.err call.now).err) :: _ = _
    rw [List.map_cons, ih]
    match herr : call.err with
    | none => simp [CountingReadCloser.Read]
    | some ReadError.eof => simp [CountingReadCloser.Read]
    | some (ReadError.failure e) => rw [CountingReadCloser.Read]

/-- After a run of reads, the stream's count has grown by the chunk sizes of
exactly the calls that did not end in a non-EOF error. -/
theorem runReads_count (cfg : Config) :
    ∀ (calls : List ReadCall) (c : CountingReadCloser) (m : TransferMap),
      (runReads cfg c m calls).2.1.count = c.count + countedBytes calls := by
  intro calls
  induction calls with
  | nil => intro c m; simp [runReads, countedBytes]
  | cons call rest ih =>
    intro c m
    match herr : call.err with
    | some (ReadError.failure e) =>
      show (runReads cfg (CountingReadCloser.Read cfg c m call.chunk call.err call.now).crc
          (CountingReadCloser.Read cfg c m call.chunk call.err call.now).transfers rest).2.1.count = _
      rw [herr]
      simp only [CountingReadCloser.Read]
      rw [ih]
      have : countedBytes (call :: rest) = countedBytes rest := by
        unfold countedBytes
        rw [List.filter_cons, herr]
        rfl
      rw [this]
    | none =>
      show (runReads cfg (CountingReadCloser.Read cfg c m call.chunk call.err call.now).crc
          (CountingReadCloser.Read cfg c m call.chunk call.err call.now).transfers rest).2.1.count = _
      rw [herr]
      simp only [CountingReadCloser.Read]
      rw [ih]
      have : countedBytes (call :: rest) = call.chunk.length + countedBytes rest := by
        unfold countedBytes
        rw [List.filter_cons, herr]
        simp
      rw [this]
      simp
      omega
    | some ReadError.eof =>
      show (runReads cfg (CountingReadCloser.Read cfg c m call.chunk call.err call.now).crc
          (CountingReadCloser.Read cfg c m call.chunk call.err call.now).transfers rest).2.1.count = _
      rw [herr]
      simp only [CountingReadCloser.Read]
      rw [ih]
      have : countedBytes (call :: rest) = call.chunk.length + countedBytes rest := by
        unfold countedBytes
        rw [List.filter_cons, herr]
        simp
      rw [this]
      simp
      omega

/-- A read that ends in a non-EOF error leaves everything untouched and hands
the pair `(n, err)` straight back (the early return of http.go:258-260). -/
theorem Read_failure_eq (cfg : Config) (c : CountingReadCloser) (m : TransferMap)
    (chunk e : String) (now : Time) :
    CountingReadCloser.Read cfg c m chunk (some (ReadError.failure e)) now
      = { n := chunk.length, err := some (ReadError.failure e), crc := c,
          transfers := m, trace := [] } := rfl

/-- An EOF read in response mode with statistics enabled updates the count and
performs the finalization write for the response's identity. -/
theorem Read_eof_transfers (cfg : Config) (c : CountingReadCloser) (m : TransferMap)
    (chunk : String) (now : Time) (rid : RespId)
    (hlog : cfg.isLoggingStats = true) (hresp : c.response = some rid) :
    (CountingReadCloser.Read cfg c m chunk (some ReadError.eof) now).transfers
      = finalizeTransfer m rid (c.count + chunk.length) now := by
  simp only [CountingReadCloser.Read, hlog, hresp]
  simp

/-- The updated stream state of an EOF read: only the count grows. -/
theorem Read_eof_crc (cfg : Config) (c : CountingReadCloser) (m : TransferMap)
    (chunk : String) (now : Time) :
    (CountingReadCloser.Read cfg c m chunk (some ReadError.eof) now).crc
      = { c with count := c.count + chunk.length } := rfl

/-- An error-free, non-EOF read never touches the records map. -/
theorem Read_none_transfers (cfg : Config) (c : CountingReadCloser) (m : TransferMap)
    (chunk : String) (now : Time) :
    (CountingReadCloser.Read cfg c m chunk none now).transfers = m := by
  simp only [CountingReadCloser.Read]
  rw [if_neg (fun h => Option.noConfusion h.1)]

/-- The updated stream state of an error-free read: only the count grows. -/
theorem Read_none_crc (cfg : Config) (c : CountingReadCloser) (m : TransferMap)
    (chunk : String) (now : Time) :
    (CountingReadCloser.Read cfg c m chunk none now).crc
      = { c with count := c.count + chunk.length } := rfl

/-- Driving a response-mode stream (statistics enabled, record open) through
any reads and a final EOF read leaves the record present, with body size equal
to the initial count plus the bytes of the non-failing reads, and stop time
equal to the final read's clock. -/
theorem runReads_eof_bodySize (cfg : Config) (rid : RespId) (last : ReadCall)
    (hlog : cfg.isLoggingStats = true) (hlast : last.err = some ReadError.eof) :
    ∀ (body : List ReadCall) (c : CountingReadCloser) (m : TransferMap),
      c.response = some rid → (lookupTransfer m rid).isSome = true →
      ∃ t, lookupTransfer (runReads cfg c m (body ++ [last])).2.2 rid = some t ∧
        t.responseStats.bodySize = c.count + countedBytes (body ++ [last]) ∧
        t.responseStats.stop = last.now := by
  intro body
  induction body with
  | nil =>
    intro c m hresp hsome
    obtain ⟨t0, ht0⟩ := Option.isSome_iff_exists.mp hsome
    have hrun : (runReads cfg c m ([] ++ [last])).2.2
        = finalizeTransfer m rid (c.count + last.chunk.length) last.now := by
      show (CountingReadCloser.Read cfg c m last.chunk last.err last.now).transfers = _
      rw [hlast, Read_eof_transfers cfg c m last.chunk last.now rid hlog hresp]
    rw [hrun, lookupTransfer_finalize, ht0]
    have hcb : countedBytes ([] ++ [last]) = last.chunk.length := by
      unfold countedBytes
      rw [List.nil_append, List.filter_cons, hlast]
      simp
    exact ⟨_, rfl, by rw [hcb], rfl⟩
  | cons call rest ih =>
    intro c m hresp hsome
    have hstep : (runReads cfg c m ((call :: rest) ++ [last])).2.2
        = (runReads cfg (CountingReadCloser.Read cfg c m call.chunk call.err call.now).crc
            (CountingReadCloser.Read cfg c m call.chunk call.err call.now).transfers
            (rest ++ [last])).2.2 := rfl
    rw [hstep]
    match herr : call.err with
    | some (ReadError.failure e) =>
      rw [Read_failure_eq]
      obtain ⟨t, ht, hb, hs⟩ := ih c m hresp hsome
      refine ⟨t, ht, ?_, hs⟩
      rw [hb]
      have : countedBytes ((call :: rest) ++ [last]) = countedBytes (rest ++ [last]) := by
        unfold countedBytes
        rw [List.cons_append, List.filter_cons, herr]
        rfl
      rw [this]
    | none =>
      rw [Read_none_transfers, Read_none_crc]
      obtain ⟨t, ht, hb, hs⟩ := ih { c with count := c.count + call.chunk.length } m hresp hsome
      refine ⟨t, ht, ?_, hs⟩
      rw [hb]
      have : countedBytes ((call :: rest) ++ [last])
          = call.chunk.length + countedBytes (rest ++ [last]) := by
        unfold countedBytes
        rw [List.cons_append, List.filter_cons, herr]
        simp
      rw [this]
      simp
      omega
    | some ReadError.eof =>
      rw [Read_eof_transfers cfg c m call.chunk call.now rid hlog hresp, Read_eof_crc]
      have hsome1 : (lookupTransfer
          (finalizeTransfer m rid (c.count + call.chunk.length) call.now) rid).isSome = true := by
        rw [lookupTransfer_finalize]
        obtain ⟨t0, ht0⟩ := Option.isSome_iff_exists.mp hsome
        rw [ht0]
        rfl
      obtain ⟨t, ht, hb, hs⟩ :=
        ih { c with count := c.count + call.chunk.length }
          (finalizeTransfer m rid (c.count + call.chunk.length) call.now) hresp hsome1
      refine ⟨t, ht, ?_, hs⟩
      rw [hb]
      have : countedBytes ((call :: rest) ++ [last])
          = call.chunk.length + countedBytes (rest ++ [last]) := by
        unfold countedBytes
        rw [List.cons_append, List.filter_cons, herr]
        simp
      rw [this]
      simp
      omega

/-- The sum of the byte counts handed back by the non-failing reads of a run
equals the bytes the stream counted. -/
theorem runReads_sum_counted (cfg : Config) (c : CountingReadCloser) (m : TransferMap)
    (calls : List ReadCall) :
    (((runReads cfg c m calls).1.filter (fun o =>
        match o.2 with
        | some (ReadError.failure _) => false
        | _ => true)).map Prod.fst).sum = countedBytes calls := by
  rw [runReads_outputs]
  induction calls with
  | nil => rfl
  | cons call rest ih =>
    match herr : call.err with
    | some (ReadError.failure e) =>
      unfold countedBytes at ih ⊢
      rw [List.map_cons, List.filter_cons, List.filter_cons, herr]
      simpa using ih
    | none =>
      unfold countedBytes at ih ⊢
      rw [List.map_cons, List.filter_cons, List.filter_cons, herr]
      simp [ih]
    | some ReadError.eof =>
      unfold countedBytes at ih ⊢
      rw [List.map_cons, List.filter_cons, List.filter_cons, herr]
      simp [ih]

/-- C5 counterexample: statistics enabled, record open, stream read to
end-of-stream in two calls — the first returns 5 bytes together with a
non-EOF error, the second returns end-of-stream. The reads returned 5 bytes
in total, but the finalized record's body size is 0: the body size does not
equal the sum of the byte counts returned by all successive reads. -/
theorem countingRead_bodySize_not_sum_of_all :
    (runReads exCfgLog exCrc exTransfers [exFailCall, exEofCall2]).1.map Prod.snd
        = [some (ReadError.failure "boom"), some ReadError.eof] ∧
    ((runReads exCfgLog exCrc exTransfers [exFailCall, exEofCall2]).1.map Prod.fst).sum = 5 ∧
    (lookupTransfer (runReads exCfgLog exCrc exTransfers [exFailCall, exEofCall2]).2.2 1).map
        (fun t => t.responseStats.bodySize)
      ≠ some (((runReads exCfgLog exCrc exTransfers [exFailCall, exEofCall2]).1.map
          Prod.fst).sum) := by
  refine ⟨by decide, by decide, by decide⟩

/-- C5 (amended): for a transfer with statistics enabled whose response body
stream is read to end-of-stream, the finalized record's body size equals the
sum of the byte counts returned by the successive reads that did not end in a
non-EOF error (bytes handed back together with such an error are not counted,
http.go:258-260). -/
theorem countingRead_bodySize_eq_counted_sum (cfg : Config) (c : CountingReadCloser)
    (m : TransferMap) (rid : RespId) (t0 : HttpTransfer) (body : List ReadCall) (last : ReadCall)
    (hlog : cfg.isLoggingStats = true) (hresp : c.response = some rid) (hcount : c.count = 0)
    (hrec : lookupTransfer m rid = some t0) (hlast : last.err = some ReadError.eof) :
    ∃ t, lookupTransfer (runReads cfg c m (body ++ [last])).2.2 rid = some t ∧
      t.responseStats.bodySize
        = (((runReads cfg c m (body ++ [last])).1.filter (fun o =>
            match o.2 with
            | some (ReadError.failure _) => false
            | _ => true)).map Prod.fst).sum := by
  obtain ⟨t, ht, hb, _⟩ := runReads_eof_bodySize cfg rid last hlog hlast body c m hresp
    (by rw [hrec]; rfl)
  refine ⟨t, ht, ?_⟩
  rw [hb, hcount, Nat.zero_add, runReads_sum_counted]

/-- C5 witness: a 3-byte read, then a 2-byte read returning end-of-stream:
the finalized body size is the returned sum, 5. -/
theorem countingRead_bodySize_eq_counted_sum_witness :
    ∃ t, lookupTransfer
        (runReads exCfgLog exCrc exTransfers
          ([{ chunk := "xyz", err := none, now := 4 }] ++ [exEofCall1])).2.2 1 = some t ∧
      t.responseStats.bodySize
        = (((runReads exCfgLog exCrc exTransfers
            ([{ chunk := "xyz", err := none, now := 4 }] ++ [exEofCall1])).1.filter (fun o =>
              match o.2 with
              | some (ReadError.failure _) => false
              | _ => true)).map Prod.fst).sum :=
  countingRead_bodySize_eq_counted_sum exCfgLog exCrc exTransfers 1 exRecord
    [{ chunk := "xyz", err := none, now := 4 }] exEofCall1 rfl rfl rfl rfl rfl

/-- C1 counterexample: statistics enabled, record open; the stream returns
end-of-stream at time 5 and, read again, returns end-of-stream again at
time 9. The second read hands back `(0, EOF)`, yet the record's stop
timestamp after it differs from the stop timestamp after the first read:
finalization is re-executed, not idempotent. -/
theorem countingRead_second_eof_changes_stop :
    (runReads exCfgLog exCrc exTransfers [exEofCall1, exEofCall2]).1
        = [(2, some ReadError.eof), (0, some ReadError.eof)] ∧
    (lookupTransfer (runReads exCfgLog exCrc exTransfers [exEofCall1, exEofCall2]).2.2 1).map
        (fun t => t.responseStats.stop)
      ≠ (lookupTransfer (runReads exCfgLog exCrc exTransfers [exEofCall1]).2.2 1).map
        (fun t => t.responseStats.stop) := by
  refine ⟨by decide, by decide⟩

/-- C1 (amended): a `Read` after end-of-stream that returns end-of-stream
again (0 bytes) re-executes the finalization write rather than being a no-op:
the record's body size is rewritten to the unchanged running count — so it
keeps its value — but the stop timestamp is overwritten with the current time
of the later read. There is no panic and the byte count is not corrupted, but
the stop timestamp is. -/
theorem countingRead_repeat_eof_refinalizes (cfg : Config) (c : CountingReadCloser)
    (m : TransferMap) (rid : RespId) (t : HttpTransfer) (now : Time)
    (hlog : cfg.isLoggingStats = true) (hresp : c.response = some rid)
    (hrec : lookupTransfer m rid = some t) :
    (CountingReadCloser.Read cfg c m "" (some ReadError.eof) now).n = 0 ∧
    (CountingReadCloser.Read cfg c m "" (some ReadError.eof) now).err = some ReadError.eof ∧
    lookupTransfer (CountingReadCloser.Read cfg c m "" (some ReadError.eof) now).transfers rid
      = some { t with responseStats :=
          { t.responseStats with bodySize := c.count, stop := now } } := by
  refine ⟨rfl, rfl, ?_⟩
  rw [Read_eof_transfers cfg c m "" now rid hlog hresp, lookupTransfer_finalize, hrec]
  rfl

/-- C1 witness: re-reading the already-drained example stream at time 9
rewrites the record's stop time to 9 and keeps the body size at the count. -/
theorem countingRead_repeat_eof_refinalizes_witness :
    (CountingReadCloser.Read exCfgLog exCrc exTransfers "" (some ReadError.eof) 9).n = 0 ∧
    (CountingReadCloser.Read exCfgLog exCrc exTransfers "" (some ReadError.eof) 9).err
      = some ReadError.eof ∧
    lookupTransfer
        (CountingReadCloser.Read exCfgLog exCrc exTransfers "" (some ReadError.eof) 9).transfers 1
      = some { exRecord with responseStats :=
          { exRecord.responseStats with bodySize := exCrc.count, stop := 9 } } :=
  countingRead_repeat_eof_refinalizes exCfgLog exCrc exTransfers 1 exRecord 9 rfl rfl rfl

/-- C8: a `Read` whose wrapped stream fails with a non-EOF error hands that
error (and the byte count) back unchanged, performs no finalization — the
records map is untouched — and the record's stop timestamp stays at its zero
value, leaving the partial record distinguishable by a zero stop time. -/
theorem countingRead_failure_propagates (cfg : Config) (c : CountingReadCloser)
    (m : TransferMap) (chunk e : String) (now : Time) (rid : RespId) (t : HttpTransfer)
    (_hresp : c.response = some rid) (hrec : lookupTransfer m rid = some t)
    (hstop : t.responseStats.stop = 0) :
    (CountingReadCloser.Read cfg c m chunk (some (ReadError.failure e)) now).n
        = chunk.length ∧
    (CountingReadCloser.Read cfg c m chunk (some (ReadError.failure e)) now).err
        = some (ReadError.failure e) ∧
    (CountingReadCloser.Read cfg c m chunk (some (ReadError.failure e)) now).crc = c ∧
    (CountingReadCloser.Read cfg c m chunk (some (ReadError.failure e)) now).transfers = m ∧
    ∃ t1, lookupTransfer
        (CountingReadCloser.Read cfg c m chunk (some (ReadError.failure e)) now).transfers rid
        = some t1 ∧ t1.responseStats.stop = 0 :=
  ⟨rfl, rfl, rfl, rfl, t, hrec, hstop⟩

/-- C8 witness: a failing 5-byte read on the example stream returns the error
unchanged and leaves the open record's stop time at zero. -/
theorem countingRead_failure_propagates_witness :
    (CountingReadCloser.Read exCfgLog exCrc exTransfers "hello"
        (some (ReadError.failure "boom")) 3).n = "hello".length ∧
    (CountingReadCloser.Read exCfgLog exCrc exTransfers "hello"
        (some (ReadError.failure "boom")) 3).err = some (ReadError.failure "boom") ∧
    (CountingReadCloser.Read exCfgLog exCrc exTransfers "hello"
        (some (ReadError.failure "boom")) 3).crc = exCrc ∧
    (CountingReadCloser.Read exCfgLog exCrc exTransfers "hello"
        (some (ReadError.failure "boom")) 3).transfers = exTransfers ∧
    ∃ t1, lookupTransfer
        (CountingReadCloser.Read exCfgLog exCrc exTransfers "hello"
          (some (ReadError.failure "boom")) 3).transfers 1
        = some t1 ∧ t1.responseStats.stop = 0 :=
  countingRead_failure_propagates exCfgLog exCrc exTransfers "hello" "boom" 3 1 exRecord
    rfl rfl rfl

/-- C7: when the underlying transport fails, `Do` returns the transport's
error unchanged and the records map is untouched — no record is created for
the failed attempt. -/
theorem httpClientDo_transport_error (cfg : Config) (msg : String)
    (reqDumpSize : Option Nat) (reqBodyCount : Nat) (start : Time) (m : TransferMap) :
    HttpClient.Do cfg (TransportOutcome.failure msg) reqDumpSize reqBodyCount start m
      = (Except.error msg, m) := rfl

/-- C9: with the statistics-logging toggle off, no operation writes to the
registry: `Do` leaves the records map unchanged, `LogTransfer` leaves the
bucket map unchanged, and a `Read` — end-of-stream included — leaves the
records map unchanged. -/
theorem disabled_stats_no_registry_writes (cfg : Config) (hlog : cfg.isLoggingStats = false) :
    (∀ (outcome : TransportOutcome) (reqDumpSize : Option Nat) (reqBodyCount : Nat)
        (start : Time) (m : TransferMap),
      (HttpClient.Do cfg outcome reqDumpSize reqBodyCount start m).2 = m) ∧
    (∀ (buckets : BucketMap) (key : String) (rid : RespId),
      LogTransfer cfg buckets key rid = buckets) ∧
    (∀ (c : CountingReadCloser) (m : TransferMap) (chunk : String)
        (err : Option ReadError) (now : Time),
      (CountingReadCloser.Read cfg c m chunk err now).transfers = m) := by
  refine ⟨?_, ?_, ?_⟩
  · intro outcome reqDumpSize reqBodyCount start m
    cases outcome with
    | failure msg => rfl
    | success rid resDumpSize =>
      simp [HttpClient.Do, hlog]
  · intro buckets key rid
    simp [LogTransfer, hlog]
  · intro c m chunk err now
    match err with
    | some (ReadError.failure e) => rfl
    | none =>
      exact Read_none_transfers cfg c m chunk now
    | some ReadError.eof =>
      simp only [CountingReadCloser.Read]
      rw [if_neg (fun h => by rw [hlog] at h; cases h.2)]

/-- C9 witness: with all flags off, a transport success opens no record, a
bucket append is a no-op, and an end-of-stream read writes nothing. -/
theorem disabled_stats_no_registry_writes_witness :
    (HttpClient.Do exCfgOff (TransportOutcome.success 1 (some 3)) (some 2) 5 7 []).2 = [] ∧
    LogTransfer exCfgOff [] "download" 1 = [] ∧
    (CountingReadCloser.Read exCfgOff exCrc [] "x" (some ReadError.eof) 2).transfers = [] :=
  ⟨(disabled_stats_no_registry_writes exCfgOff rfl).1 (TransportOutcome.success 1 (some 3))
      (some 2) 5 7 [],
    (disabled_stats_no_registry_writes exCfgOff rfl).2.1 [] "download" 1,
    (disabled_stats_no_registry_writes exCfgOff rfl).2.2 exCrc [] "x" (some ReadError.eof) 2⟩

/-- When every identity of a bucket has a record, the bucket's lines all
materialize, one per identity, in the bucket's order, each carrying the
bucket's key. -/
theorem bucketLines_all_present (m : TransferMap) (status : RespId → Nat)
    (url : RespId → String) (key : String) :
    ∀ rids : List RespId, (∀ rid, rid ∈ rids → (lookupTransfer m rid).isSome = true) →
      ∃ ls, bucketLines m status url key rids = some ls ∧
        ls = rids.filterMap (statsLine m status url key) ∧
        ls.length = rids.length ∧
        ∀ l, l ∈ ls → l.key = key := by
  intro rids
  induction rids with
  | nil =>
    intro _
    exact ⟨[], rfl, rfl, rfl, fun l hl => absurd hl (List.not_mem_nil l)⟩
  | cons rid rest ih =>
    intro h
    obtain ⟨t, ht⟩ := Option.isSome_iff_exists.mp (h rid (List.mem_cons_self rid rest))
    obtain ⟨ls, h1, h2, h3, h4⟩ := ih (fun r hr => h r (List.mem_cons_of_mem rid hr))
    have hline : ∃ line, statsLine m status url key rid = some line ∧ line.key = key := by
      unfold statsLine
      rw [ht]
      exact ⟨_, rfl, rfl⟩
    obtain ⟨line, hlineEq, hlineKey⟩ := hline
    refine ⟨line :: ls, ?_, ?_, ?_, ?_⟩
    · show bucketLines m status url key (rid :: rest) = _
      unfold bucketLines
      rw [hlineEq, h1]
    · rw [List.filterMap_cons, hlineEq, ← h2]
    · simp [h3]
    · intro l hl
      rcases List.mem_cons.mp hl with heq | hmem
      · rw [heq]
        exact hlineKey
      · exact h4 l hmem

/-- When every bucketed identity of the iterated keys has a record, the whole
report materializes: one line per bucketed identity, each bucket's lines in
the bucket's order, keyed by the bucket's key. -/
theorem allBucketLines_all_present (m : TransferMap) (buckets : BucketMap)
    (status : RespId → Nat) (url : RespId → String) :
    ∀ order : List String, order.Nodup →
      (∀ k, k ∈ order → ∀ rid, rid ∈ bucketGet buckets k →
        (lookupTransfer m rid).isSome = true) →
      ∃ L, allBucketLines m buckets status url order = some L ∧
        L.length = (order.map (fun k => (bucketGet buckets k).length)).sum ∧
        (∀ l, l ∈ L → l.key ∈ order) ∧
        ∀ k, k ∈ order → L.filter (fun l => l.key == k)
          = (bucketGet buckets k).filterMap (statsLine m status url k) := by
  intro order
  induction order with
  | nil =>
    intro _ _
    exact ⟨[], rfl, rfl, fun l hl => absurd hl (List.not_mem_nil l),
      fun k hk => absurd hk (List.not_mem_nil k)⟩
  | cons k0 rest ih =>
    intro hnodup hrec
    obtain ⟨ls, hls, hfm, hlen, hkeys⟩ := bucketLines_all_present m status url k0
      (bucketGet buckets k0) (hrec k0 (List.mem_cons_self k0 rest))
    obtain ⟨L, hL, hLlen, hLkeys, hLfilter⟩ := ih (List.nodup_cons.mp hnodup).2
      (fun k hk => hrec k (List.mem_cons_of_mem k0 hk))
    have hk0notin : k0 ∉ rest := (List.nodup_cons.mp hnodup).1
    refine ⟨ls ++ L, ?_, ?_, ?_, ?_⟩
    · show allBucketLines m buckets status url (k0 :: rest) = _
      unfold allBucketLines
      rw [hls, hL]
    · rw [List.length_append, hlen, hLlen, List.map_cons, List.sum_cons]
    · intro l hl
      rcases List.mem_append.mp hl with hmem | hmem
      · exact (hkeys l hmem) ▸ List.mem_cons_self k0 rest
      · exact List.mem_cons_of_mem k0 (hLkeys l hmem)
    · intro k hk
      rw [List.filter_append]
      rcases List.mem_cons.mp hk with heq | hmem
      · subst heq
        have hfl : ls.filter (fun l => l.key == k) = ls :=
          List.filter_eq_self.mpr (fun l hl => by rw [hkeys l hl]; exact beq_self_eq_true k)
        have hfL : L.filter (fun l => l.key == k) = [] := by
          rw [List.filter_eq_nil_iff]
          intro l hl
          have := hLkeys l hl
          intro hbeq
          rw [eq_of_beq hbeq] at this
          exact hk0notin this
        rw [hfl, hfL, List.append_nil, hfm]
      · have hkne : k ≠ k0 := fun h => hk0notin (h ▸ hmem)
        have hfl : ls.filter (fun l => l.key == k) = [] := by
          rw [List.filter_eq_nil_iff]
          intro l hl
          rw [hkeys l hl]
          simp [Ne.symm hkne]
        rw [hfl, List.nil_append]
        exact hLfilter k hmem

/-- When every bucketed identity of the iterated keys has a record, the report
writer succeeds (no missing-record dereference). -/
theorem allBucketLines_isSome (m : TransferMap) (buckets : BucketMap)
    (status : RespId → Nat) (url : RespId → String) :
    ∀ order : List String,
      (∀ k, k ∈ order → ∀ rid, rid ∈ bucketGet buckets k →
        (lookupTransfer m rid).isSome = true) →
      (allBucketLines m buckets status url order).isSome = true := by
  intro order
  induction order with
  | nil => intro _; rfl
  | cons k0 rest ih =>
    intro hrec
    obtain ⟨ls, hls, _, _, _⟩ := bucketLines_all_present m status url k0
      (bucketGet buckets k0) (hrec k0 (List.mem_cons_self k0 rest))
    have hL := ih (fun k hk => hrec k (List.mem_cons_of_mem k0 hk))
    obtain ⟨L, hLeq⟩ := Option.isSome_iff_exists.mp hL
    show (allBucketLines m buckets status url (k0 :: rest)).isSome = true
    unfold allBucketLines
    rw [hls, hLeq]
    rfl

/-- With no duplicate keys, looking a stored entry's key up in the bucket map
returns that entry's list. -/
theorem bucketGet_entry (buckets : BucketMap) :
    (buckets.map Prod.fst).Nodup →
      ∀ p, p ∈ buckets → bucketGet buckets p.1 = p.2 := by
  induction buckets with
  | nil => intro _ p hp; cases hp
  | cons q rest ih =>
    intro hnodup p hp
    rcases List.mem_cons.mp hp with heq | hmem
    · subst heq
      unfold bucketGet
      simp
    · have hne : q.1 ≠ p.1 := by
        intro h
        have : p.1 ∈ rest.map Prod.fst := List.mem_map_of_mem Prod.fst hmem
        rw [List.map_cons, List.nodup_cons] at hnodup
        exact hnodup.1 (h ▸ this)
      have hbeq : (q.1 == p.1) = false := by simp [hne]
      unfold bucketGet
      rw [List.find?_cons, hbeq]
      have := ih (by rw [List.map_cons, List.nodup_cons] at hnodup; exact hnodup.2) p hmem
      unfold bucketGet at this
      exact this

/-- C6 counterexample: the bucket map was inserted in the order `"a"`, `"b"`,
but `["b", "a"]` is an equally possible enumeration of the keys for Go's
`range` (Go specifies no map iteration order), and under it the report lines
come out in a different order: the report does not iterate buckets in
first-insertion order. -/
theorem logHttpStats_not_insertion_ordered :
    List.Perm ["b", "a"] (exBuckets.map Prod.fst) ∧
    LogHttpStats exCfgLog exTransfers2 exBuckets ["b", "a"] exStatus exUrl
      ≠ LogHttpStats exCfgLog exTransfers2 exBuckets ["a", "b"] exStatus exUrl := by
  refine ⟨by decide, by decide⟩

/-- C6 (amended): the shutdown report iterates the buckets in whatever order
the runtime's map enumeration yields — not necessarily first-insertion
order — but within each bucket it iterates the response identities in append
order, and it emits exactly one line per bucketed transfer (records never
finalized included): when every bucketed identity has a record, the report
has one line per bucketed identity and, for each key, the lines carrying that
key are exactly that bucket's identities' lines in append order. -/
theorem logHttpStats_report_lines (cfg : Config) (m : TransferMap) (buckets : BucketMap)
    (order : List String) (status : RespId → Nat) (url : RespId → String)
    (hlog : cfg.isLoggingStats = true)
    (hperm : order.Perm (buckets.map Prod.fst))
    (hnodup : (buckets.map Prod.fst).Nodup)
    (hrec : ∀ k, k ∈ order → ∀ rid, rid ∈ bucketGet buckets k →
      (lookupTransfer m rid).isSome = true) :
    ∃ L, LogHttpStats cfg m buckets order status url = some L ∧
      L.length = (buckets.map (fun p => p.2.length)).sum ∧
      ∀ k, k ∈ order → L.filter (fun l => l.key == k)
        = (bucketGet buckets k).filterMap (statsLine m status url k) := by
  have hordernodup : order.Nodup := hperm.nodup_iff.mpr hnodup
  obtain ⟨L, hL, hLlen, _, hLfilter⟩ :=
    allBucketLines_all_present m buckets status url order hordernodup hrec
  refine ⟨L, ?_, ?_, hLfilter⟩
  · unfold LogHttpStats
    rw [if_neg (by rw [hlog]; exact fun h => Bool.noConfusion h)]
    exact hL
  · rw [hLlen, (hperm.map (fun k => (bucketGet buckets k).length)).sum_eq, List.map_map]
    congr 1
    exact List.map_congr_left (fun p hp => by
      show (bucketGet buckets p.1).length = p.2.length
      rw [bucketGet_entry buckets hnodup p hp])

/-- C6 witness: the two-bucket example, iterated in the order `["b", "a"]`. -/
theorem logHttpStats_report_lines_witness :
    ∃ L, LogHttpStats exCfgLog exTransfers2 exBuckets ["b", "a"] exStatus exUrl = some L ∧
      L.length = (exBuckets.map (fun p => p.2.length)).sum ∧
      ∀ k, k ∈ ["b", "a"] → L.filter (fun l => l.key == k)
        = (bucketGet exBuckets k).filterMap (statsLine exTransfers2 exStatus exUrl k) :=
  logHttpStats_report_lines exCfgLog exTransfers2 exBuckets ["b", "a"] exStatus exUrl
    rfl (by decide) (by decide) (by decide)

/-- C10: the report writer's per-transfer record lookup is unguarded: it is
free of a missing-record dereference whenever every response identity
appearing in an iterated bucket has a record, and for a state in which an
identity was bucketed but never opened as a record, the writer dereferences
the absent record (modelled by `none`). -/
theorem logHttpStats_lookup_unguarded :
    (∀ (cfg : Config) (m : TransferMap) (buckets : BucketMap) (order : List String)
        (status : RespId → Nat) (url : RespId → String),
      (∀ k, k ∈ order → ∀ rid, rid ∈ bucketGet buckets k →
        (lookupTransfer m rid).isSome = true) →
      (LogHttpStats cfg m buckets order status url).isSome = true) ∧
    LogHttpStats exCfgLog [] [("a", [7])] ["a"] exStatus exUrl = none := by
  constructor
  · intro cfg m buckets order status url hrec
    unfold LogHttpStats
    by_cases hlog : cfg.isLoggingStats = false
    · rw [if_pos hlog]
      rfl
    · rw [if_neg hlog]
      exact allBucketLines_isSome m buckets status url order hrec
  · decide

/-- C10 witness: with every bucketed identity opened as a record, the report
writer succeeds on the two-bucket example. -/
theorem logHttpStats_lookup_unguarded_witness :
    (LogHttpStats exCfgLog exTransfers2 exBuckets ["a", "b"] exStatus exUrl).isSome = true :=
  logHttpStats_lookup_unguarded.1 exCfgLog exTransfers2 exBuckets ["a", "b"] exStatus exUrl
    (by decide)
